import Mathlib

/-!
# Verification of the todo-list application core

A shallow embedding of `src/todolist_streamlit.py` (the only source file of the
repository) together with proofs of the specified properties of its deadline
evaluator (`check_deadlines`), filter selector (`filter_tasks`), task-submission
validation (the `add_task_form` handler inside `main`) and scheduler guard
(`init_scheduler`).

Modelling choices, each traceable to the source:

* Timestamps (`Dt`) are integers counting minutes since `1970-01-01 00:00`, the
  value `datetime(1970, 1, 1)` used as epoch sentinel on line 110 of the source.
  The stored `deadline` and `notify_time` columns are TEXT; a stored string is
  represented by its `strptime` parse outcome: `some t` for a well-formed
  `'%Y-%m-%d %H:%M'` string denoting the minute `t`, `none` for a string that
  `datetime.strptime` rejects with a `ValueError`.
* The `completed` column is an INTEGER that the application only ever writes as
  `0` or `1` (`add_task` inserts `0`, `main` updates with `0` or `1`), so it is
  modelled as a `Bool`; the source reads it both by truthiness (`if completed:`,
  `if not task[7]:`) and as `task[7] == 1`, which agree on `{0, 1}`.
* `plyer`'s `notification.notify` is a foreign call that may raise.  Its
  behaviour is a parameter `Sink : Nat → Bool` giving the success of the k-th
  delivery attempt of the pass; a raised exception propagates as `Except.error`,
  exactly as an uncaught Python exception unwinds the `for` loop.
* `datetime.now()` is passed in as the parameter `now`.
-/

namespace TodoList

/-- Local wall-clock timestamps at the resolution relevant to the program,
as minutes relative to the epoch `1970-01-01 00:00`. -/
abbrev Dt := Int

/-- `datetime(1970, 1, 1)` — the epoch sentinel (source line 110, and the
default of the `notify_time` column migration on line 35). -/
def epochSentinel : Dt := 0

/-- `timedelta(minutes=30)` (source line 128). -/
def thirtyMinutes : Dt := 30

/-- `timedelta(days=1)` (source line 154). -/
def oneDay : Dt := 1440

/-- One row of the `tasks` table, in the column order of `get_tasks`
(source line 63): `id, name, deadline, notify_time, assigned_by, designation,
priority, completed`.  The two timestamp columns carry their parse outcome,
`none` standing for a stored string `strptime` rejects. -/
structure Task where
  id : Nat
  name : String
  deadline : Option Dt
  notify_time : Option Dt
  assigned_by : String
  designation : String
  priority : String
  completed : Bool
deriving Repr, DecidableEq

/-- `datetime.strptime(s, DATETIME_FORMAT)` (source lines 106-107, 153):
returns the parsed timestamp, or raises `ValueError` on a malformed string. -/
def strptime : Option Dt → Except Unit Dt
  | some t => .ok t
  | none => .error ()

/-- The kind of alert raised for a task (source lines 110-134). -/
inductive EvKind
  | notifyReached
  | overdue
  | approaching
deriving Repr, DecidableEq

/-- One alert emitted during an evaluation pass: its kind and the `id` of the
task it is about (the messages on lines 113, 122, 131 identify the task). -/
structure Event where
  kind : EvKind
  taskId : Nat
deriving Repr, DecidableEq

/-- A Python exception unwinding `check_deadlines`: either a `ValueError` from
`strptime` (lines 106-107) or an exception raised by `notification.notify`
(lines 111, 120, 129); neither is caught anywhere in the function. -/
inductive EvalError
  | parseError (taskId : Nat)
  | notifyError (taskId : Nat) (kind : EvKind)
deriving Repr, DecidableEq

/-- The behaviour of the platform notification backend during one pass:
`sink k` tells whether the k-th `notification.notify` call of the pass
returns normally (`true`) or raises (`false`). -/
abbrev Sink := Nat → Bool

/-- A backend on which every delivery succeeds. -/
def okSink : Sink := fun _ => true

/-- One `notification.notify(title, message, timeout=10)` call (lines 111-115,
120-124, 129-133) together with the `st.info` / `st.warning` that follows it:
on success the alert is emitted and the call counter advances, on failure the
exception propagates. -/
def notifyCall (sink : Sink) (cnt : Nat) (t : Task) (k : EvKind) :
    Except EvalError (List Event × Nat) :=
  if sink cnt then .ok ([⟨k, t.id⟩], cnt + 1)
  else .error (.notifyError t.id k)

/-- The body of the `for task in tasks` loop of `check_deadlines` (source
lines 99-134) for a single task: skip completed tasks; parse both stored
timestamps (a `ValueError` propagates); independently check the notify-time
condition; then check overdue / approaching as an `if`/`elif` pair.
Returns the alerts emitted for this task and the advanced call counter. -/
def checkTask (sink : Sink) (now : Dt) (cnt : Nat) (t : Task) :
    Except EvalError (List Event × Nat) :=
  if t.completed then .ok ([], cnt)
  else
    match strptime t.deadline, strptime t.notify_time with
    | .ok deadline_dt, .ok notify_dt =>
      let step1 : Except EvalError (List Event × Nat) :=
        if now ≥ notify_dt ∧ notify_dt > epochSentinel then
          notifyCall sink cnt t .notifyReached
        else .ok ([], cnt)
      match step1 with
      | .error e => .error e
      | .ok (evs1, cnt1) =>
        let step2 : Except EvalError (List Event × Nat) :=
          if deadline_dt < now then notifyCall sink cnt1 t .overdue
          else if deadline_dt - now < thirtyMinutes then
            notifyCall sink cnt1 t .approaching
          else .ok ([], cnt1)
        match step2 with
        | .error e => .error e
        | .ok (evs2, cnt2) => .ok (evs1 ++ evs2, cnt2)
    | _, _ => .error (.parseError t.id)

/-- The `for task in tasks` loop of `check_deadlines`, threading the delivery
counter: tasks are processed in order and the first uncaught exception aborts
the remainder of the loop. -/
def checkAux (sink : Sink) (now : Dt) : List Task → Nat → Except EvalError (List Event × Nat)
  | [], cnt => .ok ([], cnt)
  | t :: ts, cnt =>
    match checkTask sink now cnt t with
    | .error e => .error e
    | .ok (evs, cnt1) =>
      match checkAux sink now ts cnt1 with
      | .error e => .error e
      | .ok (rest, cnt2) => .ok (evs ++ rest, cnt2)

/-- `check_deadlines()` (source lines 94-134) over a snapshot `tasks` taken at
instant `now`, with backend behaviour `sink`: the list of alerts emitted by one
evaluation pass, or the first uncaught exception. -/
def check_deadlines (sink : Sink) (tasks : List Task) (now : Dt) :
    Except EvalError (List Event) :=
  (checkAux sink now tasks 0).map Prod.fst

/-- The alerts the evaluator raises for one task when every delivery succeeds
(a pure restatement of `checkTask` on the success path, used to specify
`check_deadlines`). -/
def taskEvents (now : Dt) (t : Task) : List Event :=
  if t.completed then []
  else
    match t.deadline, t.notify_time with
    | some deadline_dt, some notify_dt =>
      (if now ≥ notify_dt ∧ notify_dt > epochSentinel then
        [⟨.notifyReached, t.id⟩] else []) ++
      (if deadline_dt < now then [⟨.overdue, t.id⟩]
       else if deadline_dt - now < thirtyMinutes then [⟨.approaching, t.id⟩]
       else [])
    | _, _ => []

/-- Concatenation of the per-task alerts over a snapshot, in task order. -/
def allEvents (now : Dt) : List Task → List Event
  | [] => []
  | t :: ts => taskEvents now t ++ allEvents now ts

/-- The `View Nearest Deadline Tasks (within 1 day)` branch of `filter_tasks`
(source lines 149-156): completed tasks are dropped without parsing; for an
incomplete task the stored deadline is parsed (a `ValueError` propagates) and
the task is kept exactly when `deadline_dt - now < timedelta(days=1)`. -/
def nearestAux (now : Dt) : List Task → Except EvalError (List Task)
  | [] => .ok []
  | t :: ts =>
    if t.completed then nearestAux now ts
    else
      match strptime t.deadline with
      | .error _ => .error (.parseError t.id)
      | .ok deadline_dt =>
        match nearestAux now ts with
        | .error e => .error e
        | .ok rest => .ok (if deadline_dt - now < oneDay then t :: rest else rest)

/-- `filter_tasks(tasks, filter_option)` (source lines 141-158), with the
`datetime.now()` it takes internally passed as `now`.  Unrecognised options
fall through to `return tasks`. -/
def filter_tasks (now : Dt) (tasks : List Task) (filter_option : String) :
    Except EvalError (List Task) :=
  if filter_option = "View Completed Tasks" then
    .ok (tasks.filter (fun t => t.completed))
  else if filter_option = "View Nearest Deadline Tasks (within 1 day)" then
    nearestAux now tasks
  else
    .ok tasks

/-- The membership predicate of the nearest-deadline view: incomplete and
stored deadline parseable with `deadline_dt - now < oneDay` (already-overdue
tasks have a negative difference and satisfy it). -/
def nearDeadline (now : Dt) (t : Task) : Bool :=
  match t.deadline with
  | some deadline_dt => decide (deadline_dt - now < oneDay)
  | none => false

/-- The fields collected by the `add_task_form` (source lines 200-215):
`datetime.combine` of the date and time pickers always succeeds, so the two
timestamps enter as values. -/
structure SubmitForm where
  name : String
  assigned_by : String
  designation : String
  priority : String
  deadline_dt : Dt
  notify_dt : Dt
deriving Repr, DecidableEq

/-- The `if submitted:` handler of `main` (source lines 216-235) acting on the
task store: empty `name`, `assigned_by` or `designation`, or a deadline or
notify time strictly before `now`, shows an error and leaves the store alone;
otherwise `add_task` appends a row with the next id and `completed = 0`. -/
def submit_task (store : List Task) (nextId : Nat) (f : SubmitForm) (now : Dt) :
    List Task :=
  if f.name = "" then store
  else if f.assigned_by = "" then store
  else if f.designation = "" then store
  else if f.deadline_dt < now ∨ f.notify_dt < now then store
  else store ++ [⟨nextId, f.name, some f.deadline_dt, some f.notify_dt,
                 f.assigned_by, f.designation, f.priority, false⟩]

/-- The per-session `st.session_state` entry read by `init_scheduler`:
`scheduler_started = false` models the key `'scheduler_started'` being absent
(the state of a fresh session), `true` models it being set. -/
structure SessionState where
  scheduler_started : Bool
deriving Repr, DecidableEq

/-- The process-wide effect of `scheduler.start()`: each call creates and
starts one more recurring one-minute `BackgroundScheduler` job in the running
process (source lines 168-170). -/
structure ProcState where
  runningTriggers : Nat
deriving Repr, DecidableEq

/-- The `st.session_state` of a session that has just connected: the
`'scheduler_started'` key is not present. -/
def freshSession : SessionState := ⟨false⟩

/-- `init_scheduler()` (source lines 165-171): if `'scheduler_started' not in
st.session_state`, start a new recurring one-minute trigger in the process and
record the key in the calling session's state; otherwise do nothing. -/
def init_scheduler (s : SessionState) (p : ProcState) : SessionState × ProcState :=
  if s.scheduler_started = false then (⟨true⟩, ⟨p.runningTriggers + 1⟩)
  else (s, p)

/-! ## Simulation lemmas: the evaluator on a well-formed snapshot -/

/-- A snapshot is well formed when every incomplete task's stored timestamps
parse (the data-model invariant maintained by task creation). -/
def WellFormed (tasks : List Task) : Prop :=
  ∀ u ∈ tasks, ¬u.completed = true → u.deadline.isSome ∧ u.notify_time.isSome

instance : DecidablePred WellFormed := fun tasks =>
  inferInstanceAs (Decidable (∀ u ∈ tasks, _))

theorem checkTask_okSink (now : Dt) (cnt : Nat) (t : Task)
    (hw : ¬t.completed = true → t.deadline.isSome ∧ t.notify_time.isSome) :
    checkTask okSink now cnt t = .ok (taskEvents now t, cnt + (taskEvents now t).length) := by
  by_cases hc : t.completed = true
  · simp [checkTask, taskEvents, hc]
  · rcases Option.isSome_iff_exists.mp (hw hc).1 with ⟨d, hd⟩
    rcases Option.isSome_iff_exists.mp (hw hc).2 with ⟨n, hn⟩
    simp only [checkTask, taskEvents, hc, hd, hn, strptime, if_false]
    by_cases h1 : now ≥ n ∧ n > epochSentinel <;>
      by_cases h2 : d < now <;>
        by_cases h3 : d - now < thirtyMinutes <;>
          simp [h1, h2, h3, notifyCall, okSink]

theorem checkAux_okSink (now : Dt) (ts : List Task) (hw : WellFormed ts) :
    ∀ cnt, checkAux okSink now ts cnt =
      .ok (allEvents now ts, cnt + (allEvents now ts).length) := by
  induction ts with
  | nil => intro cnt; simp [checkAux, allEvents]
  | cons t ts ih =>
    intro cnt
    have ht : ¬t.completed = true → t.deadline.isSome ∧ t.notify_time.isSome :=
      hw t (by simp)
    have hts : WellFormed ts := fun u hu => hw u (by simp [hu])
    simp only [checkAux, checkTask_okSink now cnt t ht, ih hts, allEvents,
      List.length_append]
    rw [Nat.add_assoc]

theorem check_deadlines_okSink (tasks : List Task) (now : Dt) (hw : WellFormed tasks) :
    check_deadlines okSink tasks now = .ok (allEvents now tasks) := by
  simp [check_deadlines, checkAux_okSink now tasks hw 0, Except.map]

theorem taskEvents_taskId (now : Dt) (t : Task) :
    ∀ e ∈ taskEvents now t, e.taskId = t.id := by
  intro e he
  unfold taskEvents at he
  split at he
  · cases he
  · split at he
    · rcases List.mem_append.mp he with h | h <;>
        [skip; skip] <;>
        · split_ifs at h <;> simp_all
    · cases he

theorem countP_taskEvents_ne (now : Dt) (u : Task) (tid : Nat) (p : Event → Bool)
    (hp : ∀ e, p e = true → e.taskId = tid) (hne : u.id ≠ tid) :
    (taskEvents now u).countP p = 0 := by
  refine List.countP_eq_zero.mpr (fun e he hpe => hne ?_)
  rw [← taskEvents_taskId now u e he, hp e hpe]

theorem countP_allEvents_not_mem (now : Dt) (ts : List Task) (tid : Nat)
    (p : Event → Bool) (hp : ∀ e, p e = true → e.taskId = tid)
    (hmem : tid ∉ ts.map Task.id) :
    (allEvents now ts).countP p = 0 := by
  induction ts with
  | nil => simp [allEvents]
  | cons u ts ih =>
    simp only [List.map_cons, List.mem_cons, not_or] at hmem
    simp only [allEvents, List.countP_append,
      countP_taskEvents_ne now u tid p hp (fun h => hmem.1 h.symm), ih hmem.2]

theorem countP_allEvents_mem (now : Dt) (ts : List Task) (t : Task)
    (p : Event → Bool) (hp : ∀ e, p e = true → e.taskId = t.id)
    (hids : (ts.map Task.id).Nodup) (ht : t ∈ ts) :
    (allEvents now ts).countP p = (taskEvents now t).countP p := by
  induction ts with
  | nil => cases ht
  | cons u ts ih =>
    rw [List.map_cons, List.nodup_cons] at hids
    rcases List.mem_cons.mp ht with rfl | ht2
    · have : (allEvents now ts).countP p = 0 :=
        countP_allEvents_not_mem now ts t.id p hp hids.1
      simp [allEvents, List.countP_append, this]
    · have hne : u.id ≠ t.id := by
        intro h
        exact hids.1 (h ▸ List.mem_map.mpr ⟨t, ht2, rfl⟩)
      simp [allEvents, List.countP_append,
        countP_taskEvents_ne now u t.id p hp hne, ih hids.2 ht2]

/-! ## Claims about the deadline evaluator -/

/-- C1: for every task in a well-formed snapshot with `completed = false` and
`deadline < now`, a single evaluation pass emits exactly one "overdue" event
for that task and never an "approaching" event for it in the same pass. -/
theorem overdue_emitted_exactly_once (tasks : List Task) (now : Dt) (t : Task) (d : Dt)
    (hids : (tasks.map Task.id).Nodup) (hw : WellFormed tasks)
    (ht : t ∈ tasks) (hc : t.completed = false)
    (hd : t.deadline = some d) (hlt : d < now) :
    ∃ evs, check_deadlines okSink tasks now = .ok evs ∧
      evs.countP (fun e => decide (e.kind = .overdue ∧ e.taskId = t.id)) = 1 ∧
      evs.countP (fun e => decide (e.kind = .approaching ∧ e.taskId = t.id)) = 0 := by
  have hp1 : ∀ e : Event,
      decide (e.kind = EvKind.overdue ∧ e.taskId = t.id) = true → e.taskId = t.id :=
    fun e he => (of_decide_eq_true he).2
  have hp2 : ∀ e : Event,
      decide (e.kind = EvKind.approaching ∧ e.taskId = t.id) = true → e.taskId = t.id :=
    fun e he => (of_decide_eq_true he).2
  rcases Option.isSome_iff_exists.mp ((hw t ht (by simp [hc])).2) with ⟨n, hn⟩
  refine ⟨allEvents now tasks, check_deadlines_okSink tasks now hw, ?_, ?_⟩
  · rw [countP_allEvents_mem now tasks t _ hp1 hids ht]
    by_cases hnc : now ≥ n ∧ n > epochSentinel <;>
      simp [taskEvents, hc, hd, hn, hlt, hnc, List.countP_cons]
  · rw [countP_allEvents_mem now tasks t _ hp2 hids ht]
    by_cases hnc : now ≥ n ∧ n > epochSentinel <;>
      simp [taskEvents, hc, hd, hn, hlt, hnc, List.countP_cons]

/-- Witness for C1 at a concrete snapshot: one incomplete task whose deadline
(minute 0) is before `now = 10`. -/
theorem overdue_emitted_exactly_once_witness :
    ∃ evs, check_deadlines okSink
        [⟨1, "t", some 0, some 0, "a", "b", "Medium", false⟩] 10 = .ok evs ∧
      evs.countP (fun e => decide (e.kind = .overdue ∧ e.taskId = 1)) = 1 ∧
      evs.countP (fun e => decide (e.kind = .approaching ∧ e.taskId = 1)) = 0 :=
  overdue_emitted_exactly_once [⟨1, "t", some 0, some 0, "a", "b", "Medium", false⟩] 10
    ⟨1, "t", some 0, some 0, "a", "b", "Medium", false⟩ 0 (by decide) (by decide)
    (List.mem_singleton.mpr rfl) rfl rfl (by decide)

/-- C2: for every task in a well-formed snapshot with `completed = false` and
`0 ≤ deadline − now < 30` minutes, a single evaluation pass emits exactly one
"approaching deadline" event for that task and no "overdue" event for it. -/
theorem approaching_emitted_exactly_once (tasks : List Task) (now : Dt) (t : Task) (d : Dt)
    (hids : (tasks.map Task.id).Nodup) (hw : WellFormed tasks)
    (ht : t ∈ tasks) (hc : t.completed = false)
    (hd : t.deadline = some d) (hge : 0 ≤ d - now) (hlt : d - now < thirtyMinutes) :
    ∃ evs, check_deadlines okSink tasks now = .ok evs ∧
      evs.countP (fun e => decide (e.kind = .approaching ∧ e.taskId = t.id)) = 1 ∧
      evs.countP (fun e => decide (e.kind = .overdue ∧ e.taskId = t.id)) = 0 := by
  have hp1 : ∀ e : Event,
      decide (e.kind = EvKind.approaching ∧ e.taskId = t.id) = true → e.taskId = t.id :=
    fun e he => (of_decide_eq_true he).2
  have hp2 : ∀ e : Event,
      decide (e.kind = EvKind.overdue ∧ e.taskId = t.id) = true → e.taskId = t.id :=
    fun e he => (of_decide_eq_true he).2
  have hnlt : ¬d < now := by intro h; linarith
  rcases Option.isSome_iff_exists.mp ((hw t ht (by simp [hc])).2) with ⟨n, hn⟩
  refine ⟨allEvents now tasks, check_deadlines_okSink tasks now hw, ?_, ?_⟩
  · rw [countP_allEvents_mem now tasks t _ hp1 hids ht]
    by_cases hnc : now ≥ n ∧ n > epochSentinel <;>
      simp [taskEvents, hc, hd, hn, hnlt, hlt, hnc, List.countP_cons]
  · rw [countP_allEvents_mem now tasks t _ hp2 hids ht]
    by_cases hnc : now ≥ n ∧ n > epochSentinel <;>
      simp [taskEvents, hc, hd, hn, hnlt, hlt, hnc, List.countP_cons]

/-- Witness for C2 at a concrete snapshot: one incomplete task whose deadline
(minute 20) is 20 minutes after `now = 0`. -/
theorem approaching_emitted_exactly_once_witness :
    ∃ evs, check_deadlines okSink
        [⟨1, "t", some 20, some 0, "a", "b", "Medium", false⟩] 0 = .ok evs ∧
      evs.countP (fun e => decide (e.kind = .approaching ∧ e.taskId = 1)) = 1 ∧
      evs.countP (fun e => decide (e.kind = .overdue ∧ e.taskId = 1)) = 0 :=
  approaching_emitted_exactly_once [⟨1, "t", some 20, some 0, "a", "b", "Medium", false⟩] 0
    ⟨1, "t", some 20, some 0, "a", "b", "Medium", false⟩ 20 (by decide) (by decide)
    (List.mem_singleton.mpr rfl) rfl rfl (by decide) (by decide)

/-- C3: a completed task produces no event of any kind in an evaluation pass,
whatever its `deadline` and `notify_time` (even unparsable ones) and whatever
`now` is. -/
theorem completed_task_emits_nothing (tasks : List Task) (now : Dt) (t : Task)
    (hids : (tasks.map Task.id).Nodup) (hw : WellFormed tasks)
    (ht : t ∈ tasks) (hc : t.completed = true) :
    ∃ evs, check_deadlines okSink tasks now = .ok evs ∧
      evs.countP (fun e => decide (e.taskId = t.id)) = 0 := by
  have hp : ∀ e : Event, decide (e.taskId = t.id) = true → e.taskId = t.id :=
    fun e he => of_decide_eq_true he
  refine ⟨allEvents now tasks, check_deadlines_okSink tasks now hw, ?_⟩
  rw [countP_allEvents_mem now tasks t _ hp hids ht]
  simp [taskEvents, hc]

/-- Witness for C3 at a concrete snapshot: a completed task whose deadline is
long past and whose notify time is due, at `now = 100`. -/
theorem completed_task_emits_nothing_witness :
    ∃ evs, check_deadlines okSink
        [⟨1, "t", some 0, some 5, "a", "b", "Low", true⟩] 100 = .ok evs ∧
      evs.countP (fun e => decide (e.taskId = 1)) = 0 :=
  completed_task_emits_nothing [⟨1, "t", some 0, some 5, "a", "b", "Low", true⟩] 100
    ⟨1, "t", some 0, some 5, "a", "b", "Low", true⟩ (by decide) (by decide)
    (List.mem_singleton.mpr rfl) rfl

/-- C4: for an incomplete task in a well-formed snapshot, a pass emits the
"notification time reached" event exactly when `now ≥ notify_time` and
`notify_time` is strictly after the epoch sentinel; the sentinel value itself
never triggers it, and the count does not depend on the overdue/approaching
outcome. -/
theorem notify_time_event_iff (tasks : List Task) (now : Dt) (t : Task) (n : Dt)
    (hids : (tasks.map Task.id).Nodup) (hw : WellFormed tasks)
    (ht : t ∈ tasks) (hc : t.completed = false)
    (hn : t.notify_time = some n) :
    ∃ evs, check_deadlines okSink tasks now = .ok evs ∧
      evs.countP (fun e => decide (e.kind = .notifyReached ∧ e.taskId = t.id)) =
        (if now ≥ n ∧ n > epochSentinel then 1 else 0) := by
  have hp : ∀ e : Event,
      decide (e.kind = EvKind.notifyReached ∧ e.taskId = t.id) = true → e.taskId = t.id :=
    fun e he => (of_decide_eq_true he).2
  rcases Option.isSome_iff_exists.mp ((hw t ht (by simp [hc])).1) with ⟨d, hd⟩
  refine ⟨allEvents now tasks, check_deadlines_okSink tasks now hw, ?_⟩
  rw [countP_allEvents_mem now tasks t _ hp hids ht]
  by_cases hnc : now ≥ n ∧ n > epochSentinel <;>
    by_cases h2 : d < now <;>
      by_cases h3 : d - now < thirtyMinutes <;>
        simp [taskEvents, hc, hd, hn, hnc, h2, h3, List.countP_cons]

/-- Witness for C4 at a concrete snapshot: an incomplete task whose notify
time is the epoch sentinel, far-future deadline, at `now = 50`: the count of
"notification time reached" events is 0. -/
theorem notify_time_event_iff_witness :
    ∃ evs, check_deadlines okSink
        [⟨1, "t", some 10000, some 0, "a", "b", "High", false⟩] 50 = .ok evs ∧
      evs.countP (fun e => decide (e.kind = .notifyReached ∧ e.taskId = 1)) =
        (if (50 : Dt) ≥ 0 ∧ (0 : Dt) > epochSentinel then 1 else 0) :=
  notify_time_event_iff [⟨1, "t", some 10000, some 0, "a", "b", "High", false⟩] 50
    ⟨1, "t", some 10000, some 0, "a", "b", "High", false⟩ 0 (by decide) (by decide)
    (List.mem_singleton.mpr rfl) rfl rfl

/-! ## Error propagation in the evaluator -/

theorem checkAux_append_ok (sink : Sink) (now : Dt) :
    ∀ (pre : List Task) (cnt : Nat) (evs : List Event) (c : Nat),
      checkAux sink now pre cnt = .ok (evs, c) →
      ∀ rest, checkAux sink now (pre ++ rest) cnt =
        (match checkAux sink now rest c with
         | .error e => .error e
         | .ok (r, c2) => .ok (evs ++ r, c2)) := by
  intro pre
  induction pre with
  | nil =>
    intro cnt evs c h rest
    simp only [checkAux, Except.ok.injEq, Prod.mk.injEq] at h
    obtain ⟨h1, h2⟩ := h
    subst h1; subst h2
    cases haux : checkAux sink now rest cnt with
    | error e => simp [haux]
    | ok q => rcases q with ⟨r, c2⟩; simp [haux]
  | cons u pre ih =>
    intro cnt evs c h rest
    rw [List.cons_append]
    cases hct : checkTask sink now cnt u with
    | error e =>
      simp only [checkAux, hct] at h
      exact Except.noConfusion h
    | ok p =>
      rcases p with ⟨evs1, c1⟩
      cases hau : checkAux sink now pre c1 with
      | error e =>
        simp only [checkAux, hct, hau] at h
        exact Except.noConfusion h
      | ok q =>
        rcases q with ⟨r1, c2⟩
        simp only [checkAux, hct, hau, Except.ok.injEq, Prod.mk.injEq] at h
        obtain ⟨h1, h2⟩ := h
        subst h1; subst h2
        simp only [checkAux, hct, ih c1 r1 c2 hau rest]
        cases haux : checkAux sink now rest c2 with
        | error e => simp only [haux]
        | ok q2 =>
          rcases q2 with ⟨r2, c3⟩
          simp only [haux, List.append_assoc]

/-- C5 (amended): if, after some prefix of the snapshot has been evaluated
successfully, the delivery of a notification for the next task raises, the
whole evaluation pass aborts with that error — whatever tasks remain after it,
they are never evaluated and no event list is produced. -/
theorem notify_failure_aborts_pass (sink : Sink) (now : Dt) (pre : List Task)
    (t : Task) (evs : List Event) (c : Nat) (e : EvalError)
    (hpre : checkAux sink now pre 0 = .ok (evs, c))
    (ht : checkTask sink now c t = .error e) :
    ∀ suf, check_deadlines sink (pre ++ t :: suf) now = .error e := by
  intro suf
  unfold check_deadlines
  rw [checkAux_append_ok sink now pre 0 evs c hpre (t :: suf)]
  simp only [checkAux, ht]
  rfl

/-- Witness for the amended C5: empty prefix, an overdue task whose single
delivery attempt raises, one further task in the snapshot. -/
theorem notify_failure_aborts_pass_witness :
    check_deadlines (fun _ => false)
      ([] ++ ⟨1, "t1", some 0, some 0, "a", "b", "Medium", false⟩ ::
        [⟨2, "t2", some 0, some 0, "a", "b", "Medium", false⟩]) 10 =
      .error (.notifyError 1 .overdue) :=
  notify_failure_aborts_pass (fun _ => false) 10 []
    ⟨1, "t1", some 0, some 0, "a", "b", "Medium", false⟩ [] 0
    (.notifyError 1 .overdue) rfl rfl
    [⟨2, "t2", some 0, some 0, "a", "b", "Medium", false⟩]

/-- Counterexample to C5 as stated: two overdue incomplete tasks, a backend
that raises only on the very first delivery attempt of the pass.  The claim
says the pass continues and still notifies task 2, whose delivery would have
succeeded; instead the exception propagates, the pass returns no event list at
all, and task 2 is never evaluated. -/
theorem notify_failure_aborts_pass_cex :
    check_deadlines (fun k => decide (k ≠ 0))
      [⟨1, "t1", some 0, some 0, "a", "b", "Medium", false⟩,
       ⟨2, "t2", some 0, some 0, "a", "b", "Medium", false⟩] 10 =
      .error (.notifyError 1 .overdue) ∧
    ∀ evs : List Event, check_deadlines (fun k => decide (k ≠ 0))
      [⟨1, "t1", some 0, some 0, "a", "b", "Medium", false⟩,
       ⟨2, "t2", some 0, some 0, "a", "b", "Medium", false⟩] 10 ≠ .ok evs := by
  have h1 : check_deadlines (fun k => decide (k ≠ 0))
      [⟨1, "t1", some 0, some 0, "a", "b", "Medium", false⟩,
       ⟨2, "t2", some 0, some 0, "a", "b", "Medium", false⟩] 10 =
      .error (.notifyError 1 .overdue) := rfl
  exact ⟨h1, fun evs h => by rw [h1] at h; cases h⟩

/-- A task whose stored deadline or notify-time string is malformed makes the
loop body raise `ValueError` out of `strptime` before any alert for it. -/
theorem checkTask_parse_error (sink : Sink) (now : Dt) (cnt : Nat) (t : Task)
    (hc : ¬t.completed = true) (hbad : t.deadline = none ∨ t.notify_time = none) :
    checkTask sink now cnt t = .error (.parseError t.id) := by
  rcases hbad with hd | hn
  · cases hn2 : t.notify_time <;> simp [checkTask, hc, hd, hn2, strptime]
  · cases hd2 : t.deadline <;> simp [checkTask, hc, hn, hd2, strptime]

theorem checkAux_parse_error (now : Dt) :
    ∀ (ts : List Task) (cnt : Nat) (t : Task), t ∈ ts → t.completed = false →
      (t.deadline = none ∨ t.notify_time = none) →
      ∃ tid, checkAux okSink now ts cnt = .error (.parseError tid) := by
  intro ts
  induction ts with
  | nil => intro cnt t ht; cases ht
  | cons u ts ih =>
    intro cnt t ht hc hbad
    rcases List.mem_cons.mp ht with rfl | ht2
    · exact ⟨t.id, by
        simp [checkAux, checkTask_parse_error okSink now cnt t (by simp [hc]) hbad]⟩
    · by_cases hcu : u.completed = true
      · have hu : checkTask okSink now cnt u = .ok ([], cnt) := by
          simp [checkTask, hcu]
        rcases ih cnt t ht2 hc hbad with ⟨tid, htid⟩
        exact ⟨tid, by simp [checkAux, hu, htid]⟩
      · rcases hdu : u.deadline with _ | du
        · exact ⟨u.id, by
            simp [checkAux, checkTask_parse_error okSink now cnt u hcu (Or.inl hdu)]⟩
        · rcases hnu : u.notify_time with _ | nu
          · exact ⟨u.id, by
              simp [checkAux, checkTask_parse_error okSink now cnt u hcu (Or.inr hnu)]⟩
          · have hu := checkTask_okSink now cnt u
              (fun _ => ⟨by simp [hdu], by simp [hnu]⟩)
            rcases ih (cnt + (taskEvents now u).length) t ht2 hc hbad with ⟨tid, htid⟩
            exact ⟨tid, by simp [checkAux, hu, htid]⟩

/-- C8: if an incomplete task of the snapshot has an unparsable stored
deadline or notify-time string, the evaluation pass (with every delivery
succeeding, so that no other failure interferes) aborts with a propagated
`ValueError` — it produces no event list, rather than silently skipping the
corrupt task. -/
theorem unparsable_timestamp_fails_pass (tasks : List Task) (now : Dt) (t : Task)
    (ht : t ∈ tasks) (hc : t.completed = false)
    (hbad : t.deadline = none ∨ t.notify_time = none) :
    ∃ tid, check_deadlines okSink tasks now = .error (.parseError tid) := by
  rcases checkAux_parse_error now tasks 0 t ht hc hbad with ⟨tid, htid⟩
  exact ⟨tid, by simp [check_deadlines, htid, Except.map]⟩

/-- Witness for C8: a snapshot holding a single incomplete task whose stored
deadline string is malformed. -/
theorem unparsable_timestamp_fails_pass_witness :
    ∃ tid, check_deadlines okSink
      [⟨1, "t", none, some 0, "a", "b", "Medium", false⟩] 0 =
      .error (.parseError tid) :=
  unparsable_timestamp_fails_pass
    [⟨1, "t", none, some 0, "a", "b", "Medium", false⟩] 0
    ⟨1, "t", none, some 0, "a", "b", "Medium", false⟩
    (List.mem_singleton.mpr rfl) rfl (Or.inl rfl)

/-! ## Claims about the filter selector -/

theorem nearestAux_filter (now : Dt) :
    ∀ ts : List Task, (∀ u ∈ ts, ¬u.completed = true → u.deadline.isSome) →
      nearestAux now ts = .ok (ts.filter (fun u => !u.completed && nearDeadline now u)) := by
  intro ts
  induction ts with
  | nil => intro _; simp [nearestAux]
  | cons u ts ih =>
    intro h
    have hts := fun v hv => h v (List.mem_cons_of_mem _ hv)
    by_cases hcu : u.completed = true
    · simp [nearestAux, hcu, ih hts, List.filter_cons]
    · rcases Option.isSome_iff_exists.mp (h u (List.mem_cons_self u ts) hcu) with ⟨d, hd⟩
      by_cases hlt : d - now < oneDay <;>
        simp [nearestAux, hcu, hd, strptime, ih hts, List.filter_cons,
          nearDeadline, hlt]

/-- C6: the three view modes of `filter_tasks` are exactly their specified
projections — `All Tasks` is the identity (same list, same order);
`View Completed Tasks` keeps exactly the tasks with `completed = true`,
whatever their deadlines; `View Nearest Deadline Tasks (within 1 day)` keeps
exactly the incomplete tasks with `deadline − now < 24` hours (a strict bound
on a possibly negative difference, so already-overdue tasks are kept),
provided the incomplete tasks' stored deadlines parse. -/
theorem filter_tasks_modes (now : Dt) (tasks : List Task)
    (hw : ∀ u ∈ tasks, ¬u.completed = true → u.deadline.isSome) :
    filter_tasks now tasks "All Tasks" = .ok tasks ∧
    filter_tasks now tasks "View Completed Tasks" =
      .ok (tasks.filter (fun u => u.completed)) ∧
    filter_tasks now tasks "View Nearest Deadline Tasks (within 1 day)" =
      .ok (tasks.filter (fun u => !u.completed && nearDeadline now u)) := by
  refine ⟨rfl, rfl, ?_⟩
  have heq : filter_tasks now tasks "View Nearest Deadline Tasks (within 1 day)" =
      nearestAux now tasks := rfl
  rw [heq, nearestAux_filter now tasks hw]

/-- Witness for C6: a two-task snapshot (one completed and overdue, one
incomplete and due tomorrow-plus) at `now = 0`. -/
theorem filter_tasks_modes_witness :
    filter_tasks 0 [⟨1, "t1", some (-5), some 0, "a", "b", "Low", true⟩,
                    ⟨2, "t2", some 2000, some 0, "a", "b", "High", false⟩]
      "All Tasks" =
      .ok [⟨1, "t1", some (-5), some 0, "a", "b", "Low", true⟩,
           ⟨2, "t2", some 2000, some 0, "a", "b", "High", false⟩] ∧
    filter_tasks 0 [⟨1, "t1", some (-5), some 0, "a", "b", "Low", true⟩,
                    ⟨2, "t2", some 2000, some 0, "a", "b", "High", false⟩]
      "View Completed Tasks" =
      .ok ([⟨1, "t1", some (-5), some 0, "a", "b", "Low", true⟩,
            ⟨2, "t2", some 2000, some 0, "a", "b", "High", false⟩].filter
        (fun u => u.completed)) ∧
    filter_tasks 0 [⟨1, "t1", some (-5), some 0, "a", "b", "Low", true⟩,
                    ⟨2, "t2", some 2000, some 0, "a", "b", "High", false⟩]
      "View Nearest Deadline Tasks (within 1 day)" =
      .ok ([⟨1, "t1", some (-5), some 0, "a", "b", "Low", true⟩,
            ⟨2, "t2", some 2000, some 0, "a", "b", "High", false⟩].filter
        (fun u => !u.completed && nearDeadline 0 u)) :=
  filter_tasks_modes 0
    [⟨1, "t1", some (-5), some 0, "a", "b", "Low", true⟩,
     ⟨2, "t2", some 2000, some 0, "a", "b", "High", false⟩] (by decide)

/-- C10: any view-mode string other than the two recognised filter options
falls through to the final `return tasks`: the input list comes back unchanged
and no error branch exists for unknown modes. -/
theorem filter_tasks_unknown_option_identity (now : Dt) (tasks : List Task)
    (opt : String)
    (h1 : opt ≠ "View Completed Tasks")
    (h2 : opt ≠ "View Nearest Deadline Tasks (within 1 day)") :
    filter_tasks now tasks opt = .ok tasks := by
  simp [filter_tasks, h1, h2]

/-- Witness for C10 at the mode string `'All Tasks'` (not special-cased in
`filter_tasks`) on a one-task list. -/
theorem filter_tasks_unknown_option_identity_witness :
    filter_tasks 0 [⟨1, "t", none, none, "a", "b", "Low", true⟩] "All Tasks" =
      .ok [⟨1, "t", none, none, "a", "b", "Low", true⟩] :=
  filter_tasks_unknown_option_identity 0
    [⟨1, "t", none, none, "a", "b", "Low", true⟩] "All Tasks"
    (by decide) (by decide)

/-! ## Task-submission validation -/

/-- C7: a submission with an empty `name`, `assigned_by` or `designation`, or
with a deadline or notify time strictly before `now`, is rejected: the handler
does not call `add_task` and the store is left exactly as it was. -/
theorem submit_rejects_invalid (store : List Task) (nextId : Nat)
    (f : SubmitForm) (now : Dt)
    (h : f.name = "" ∨ f.assigned_by = "" ∨ f.designation = "" ∨
         f.deadline_dt < now ∨ f.notify_dt < now) :
    submit_task store nextId f now = store := by
  unfold submit_task
  split_ifs with h1 h2 h3 h4
  · rfl
  · rfl
  · rfl
  · rfl
  · exfalso
    rcases h with h | h | h | h | h
    · exact h1 h
    · exact h2 h
    · exact h3 h
    · exact h4 (Or.inl h)
    · exact h4 (Or.inr h)

/-- Witness for C7: a form whose deadline (minute 0) is before `now = 5`,
submitted against a one-task store. -/
theorem submit_rejects_invalid_witness :
    submit_task [⟨1, "t", some 9, some 9, "a", "b", "Low", false⟩] 2
      ⟨"n", "a", "b", "High", 0, 9⟩ 5 =
      [⟨1, "t", some 9, some 9, "a", "b", "Low", false⟩] :=
  submit_rejects_invalid [⟨1, "t", some 9, some 9, "a", "b", "Low", false⟩] 2
    ⟨"n", "a", "b", "High", 0, 9⟩ 5 (Or.inr (Or.inr (Or.inr (Or.inl (by decide)))))

/-! ## The scheduler guard -/

/-- Counterexample to C9 as stated: the guard lives in `st.session_state`,
which is per session, not per process.  Two sessions of the same process each
call `init_scheduler` once with a fresh session state, and the process ends up
with two recurring one-minute triggers running. -/
theorem second_session_starts_second_trigger :
    (init_scheduler freshSession
      (init_scheduler freshSession ⟨0⟩).2).2.runningTriggers = 2 := rfl

/-- C9 (amended): initialization is idempotent per user session — within one
session, calling `init_scheduler` again after it has run once changes nothing,
so a session never starts a second trigger; the per-process bound does not
hold across sessions. -/
theorem init_scheduler_idempotent_per_session (s : SessionState) (p : ProcState) :
    init_scheduler (init_scheduler s p).1 (init_scheduler s p).2 =
      init_scheduler s p := by
  cases s with
  | mk b => cases b <;> simp [init_scheduler]

end TodoList
